import Mathlib

/-!
Verification of the bottle-detector-in-crate repository.

The Python sources are shallowly embedded below.  OpenCV / NumPy library
calls (`cv2.cvtColor`, `cv2.GaussianBlur`, `cv2.HoughCircles`,
`cv2.threshold`, `cv2.findContours`, `cv2.circle`, `cv2.putText`) are not
part of the repository; they are supplied to the embedded functions as
explicit function arguments (a record of operations), so every theorem
quantifies over the library's behaviour, and library contracts taken from
the specification appear as explicit hypotheses.  Machine floats are
modelled as rationals; NumPy's `np.around` (round half to even) and the
`np.uint16` cast (reduction modulo 2^16) are modelled exactly.
-/

namespace BottleDetect

/-- A detected circle `(centerX, centerY, radius)`; the elements of the
`bottles` lists built by both detectors in `bottle_counter.py`. -/
abbrev Circle : Type := ℤ × ℤ × ℤ

/-- A raw floating-point circle as produced by `cv2.HoughCircles` or
`cv2.minEnclosingCircle`, modelled with rational components. -/
abbrev RawCircle : Type := ℚ × ℚ × ℚ

/-- The five tunable detection parameters held by `BottleCounter`
(`bottle_counter.py`, `__init__`). -/
structure DetectionParameters where
  min_radius : ℤ
  max_radius : ℤ
  min_distance : ℤ
  param1 : ℤ
  param2 : ℤ
deriving DecidableEq, Repr

/-- The default parameter values set in `BottleCounter.__init__`. -/
def defaultParams : DetectionParameters :=
  { min_radius := 15, max_radius := 60, min_distance := 20, param1 := 30, param2 := 30 }

/-- `np.around` with `decimals = 0`: round to the nearest integer,
ties going to the even integer (IEEE round-half-even, which is what
NumPy uses).  `Rat.floor` is used instead of `⌊·⌋` so the function
evaluates inside the kernel; the two agree (`Rat.floor_def'`). -/
def npRound (q : ℚ) : ℤ :=
  if q - Rat.floor q < 1/2 then Rat.floor q
  else if 1/2 < q - Rat.floor q then Rat.floor q + 1
  else if Rat.floor q % 2 = 0 then Rat.floor q else Rat.floor q + 1

/-- The `np.uint16` cast applied to an integer-valued float: reduction
modulo `2^16` into `[0, 65535]`. -/
def toUint16 (n : ℤ) : ℤ := n % 65536

/-- Elementwise effect of `np.uint16(np.around(circles))` on one raw
circle (`bottle_counter.py`, `detect_bottles_hough`). -/
def np_uint16_around (c : RawCircle) : Circle :=
  (toUint16 (npRound c.1), toUint16 (npRound c.2.1), toUint16 (npRound c.2.2))

/-- The post-processing of the `cv2.HoughCircles` result in
`detect_bottles_hough`: `None` becomes the empty list, otherwise every
raw circle is rounded, cast to `uint16`, and appended to `bottles` in
order. -/
def hough_postprocess (circles : Option (List RawCircle)) : List Circle :=
  match circles with
  | none => []
  | some cs => (cs.map np_uint16_around).foldl (fun acc c => acc ++ [c]) []

/-- A contour as consumed by the filtering loop of
`detect_bottles_contour`: the quantities the loop extracts from it via
`cv2.contourArea`, `cv2.arcLength` and `cv2.minEnclosingCircle`. -/
structure Boundary where
  area : ℚ
  perimeter : ℚ
  mecX : ℚ
  mecY : ℚ
  mecR : ℚ
deriving DecidableEq, Repr

/-- The float64 value of `np.pi` (the IEEE double nearest to π), as an
exact rational. -/
def npPi : ℚ := 884279719003555 / 281474976710656

/-- `circularity = 4 * np.pi * (area / (perimeter * perimeter)) if
perimeter > 0 else 0` (`bottle_counter.py`, `detect_bottles_contour`). -/
def circularity (b : Boundary) : ℚ :=
  if 0 < b.perimeter then 4 * npPi * (b.area / (b.perimeter * b.perimeter)) else 0

/-- Python `int()` applied to a float: truncation toward zero. -/
def pyIntTrunc (q : ℚ) : ℤ := if 0 ≤ q then Rat.floor q else -(Rat.floor (-q))

/-- The circle appended for a surviving contour:
`(int(x), int(y), int(radius))` of its minimal enclosing circle. -/
def boundaryCircle (b : Boundary) : Circle :=
  (pyIntTrunc b.mecX, pyIntTrunc b.mecY, pyIntTrunc b.mecR)

/-- The filtering conditions of the contour loop: `area >= 500`,
`circularity >= 0.5` and `min_radius <= radius <= max_radius` (the
conditions under which the loop does not `continue`/skip). -/
def contour_keep (p : DetectionParameters) (b : Boundary) : Bool :=
  decide (500 ≤ b.area) && decide (1/2 ≤ circularity b) &&
  (decide ((p.min_radius : ℚ) ≤ b.mecR) && decide (b.mecR ≤ (p.max_radius : ℚ)))

/-- The filtering loop of `detect_bottles_contour`: keep the contours
passing all three filters and emit their integer-truncated minimal
enclosing circles, in discovery order. -/
def contour_filter (p : DetectionParameters) (contours : List Boundary) : List Circle :=
  (contours.filter (contour_keep p)).map boundaryCircle

/-- The external OpenCV operations used by the detectors and the overlay
drawing, supplied as explicit functions.  `F` is the type of color
frames, `G` the type of single-channel (grayscale / binary) images. -/
structure CvOps (F G : Type) where
  cvtColor : F → G
  gaussianBlur : G → G
  houghCircles : G → DetectionParameters → Option (List RawCircle)
  threshold : G → G
  findContours : G → List Boundary
  circleOp : F → ℤ × ℤ → ℤ → ℤ × ℤ × ℤ → ℤ → F
  putText : F → String → ℤ × ℤ → F

/-- `BottleCounter.detect_bottles_hough`: grayscale conversion, Gaussian
blur, `cv2.HoughCircles` with the five parameters, then rounding / uint16
conversion of the result. -/
def detect_bottles_hough {F G : Type} (ops : CvOps F G) (p : DetectionParameters)
    (frame : F) : List Circle :=
  let gray := ops.cvtColor frame
  let blurred := ops.gaussianBlur gray
  hough_postprocess (ops.houghCircles blurred p)

/-- `BottleCounter.detect_bottles_contour`: grayscale conversion, blur,
inverted Otsu threshold, outer-contour extraction, then the filtering
loop. -/
def detect_bottles_contour {F G : Type} (ops : CvOps F G) (p : DetectionParameters)
    (frame : F) : List Circle :=
  let gray := ops.cvtColor frame
  let blurred := ops.gaussianBlur gray
  let thresh := ops.threshold blurred
  let contours := ops.findContours thresh
  contour_filter p contours

/-- The reconciliation step of `BottleCounter.process_frame` (same
expression in `analyze_frame.py`):
`bottles = bottles_hough if len(bottles_hough) > len(bottles_contour)
else bottles_contour`. -/
def reconcile (bottles_hough bottles_contour : List Circle) : List Circle :=
  if bottles_contour.length < bottles_hough.length then bottles_hough else bottles_contour

example : reconcile [(1, 1, 1)] [] = [(1, 1, 1)] := by decide
example : reconcile [(1, 1, 1)] [(2, 2, 2)] = [(2, 2, 2)] := by decide

unseal Rat.add Rat.sub Rat.mul Rat.inv in
example : npRound (29/2) = 14 := by decide

unseal Rat.add Rat.sub Rat.mul Rat.inv in
example : npRound (-3/2) = -2 := by decide

example : toUint16 (-1) = 65535 := by decide
example : toUint16 70000 = 4464 := by decide

/-! ## Parameter store (`load_parameters` / parameter saving)

A parameter file is modelled as the list of its lines (each line without
its trailing newline, which `line.strip()` would remove anyway). -/

/-- The ASCII whitespace characters removed by Python `str.strip()`. -/
def isPySpace (c : Char) : Bool :=
  c == ' ' || c == '\t' || c == '\n' || c == '\r' || c == '\x0b' || c == '\x0c'

/-- Python `str.strip()`: remove leading and trailing whitespace. -/
def pyStrip (s : String) : String :=
  String.mk (((s.data.dropWhile isPySpace).reverse.dropWhile isPySpace).reverse)

/-- ASCII decimal digit test. -/
def isDigitChar (c : Char) : Bool := 48 ≤ c.toNat && c.toNat ≤ 57

/-- Numeric value of an ASCII digit. -/
def digitVal (c : Char) : ℕ := c.toNat - 48

/-- Accumulate the remaining digits of a decimal literal; any non-digit
character makes the whole parse fail. -/
def parseDigits : List Char → ℕ → Option ℕ
  | [], acc => some acc
  | c :: rest, acc =>
    if isDigitChar c then parseDigits rest (acc * 10 + digitVal c) else none

/-- Parse a non-empty all-digit character list. -/
def parseNatChars : List Char → Option ℕ
  | [] => none
  | c :: rest => if isDigitChar c then parseDigits rest (digitVal c) else none

/-- Parse an optional sign followed by a non-empty digit string. -/
def parsePyIntChars : List Char → Option ℤ
  | [] => none
  | c :: rest =>
    if c = '+' then (parseNatChars rest).map (fun n => (n : ℤ))
    else if c = '-' then (parseNatChars rest).map (fun n => -(n : ℤ))
    else (parseNatChars (c :: rest)).map (fun n => (n : ℤ))

/-- Python `int(value)` on an ASCII decimal string: surrounding
whitespace is allowed, then an optional sign and a non-empty digit
string; anything else raises (here: `none`).  (Exotic accepted forms
such as digit-group underscores or non-ASCII digits are not modelled;
no claim depends on them.) -/
def parsePyInt (s : String) : Option ℤ := parsePyIntChars (pyStrip s).data

/-- Python `line.split(' = ')`: split on every non-overlapping
occurrence of the three-character separator, scanning left to right. -/
def splitEq : List Char → List (List Char)
  | [] => [[]]
  | [c] => [[c]]
  | [c, d] => [[c, d]]
  | c :: d :: e :: rest =>
    if c = ' ' ∧ d = '=' ∧ e = ' ' then [] :: splitEq rest
    else
      match splitEq (d :: e :: rest) with
      | h :: t => (c :: h) :: t
      | [] => [[c]]

/-- One iteration of the `load_parameters` loop
(`use_custom_params.py`, identical copies in `analyze_frame.py` and
`save_results.py`): `key, value = line.strip().split(' = ')` followed by
`int(value)`.  Any failure (not exactly two parts, or a non-integer
value) raises, which aborts the whole load. -/
def parse_param_line (line : String) : Option (String × ℤ) :=
  match splitEq (pyStrip line).data with
  | [k, v] => (parsePyInt (String.mk v)).map (fun n => (String.mk k, n))
  | _ => none

/-- The `params` dictionary: key/value pairs, most recent assignment
first. -/
abbrev ParamDict := List (String × ℤ)

/-- Python `params.get(key, default)`. -/
def dictGet (d : ParamDict) (k : String) (dflt : ℤ) : ℤ :=
  match d.find? (fun kv => kv.1 == k) with
  | some kv => kv.2
  | none => dflt

/-- `load_parameters`: parse every line; on the first failing line the
exception handler discards everything and returns `None`. -/
def load_parameters (lines : List String) : Option ParamDict :=
  lines.foldl
    (fun acc line => acc.bind (fun d => (parse_param_line line).map (fun kv => kv :: d)))
    (some [])

/-- The five recognized parameter-file keys. -/
def kMinRadius : String := "min_radius"

/-- Key of the maximum-radius entry. -/
def kMaxRadius : String := "max_radius"

/-- Key of the minimum-center-distance entry. -/
def kMinDistance : String := "min_distance"

/-- Key of the edge-threshold entry. -/
def kParam1 : String := "param1"

/-- Key of the accumulator-threshold entry. -/
def kParam2 : String := "param2"

/-- The parameter update performed by the callers
(`use_custom_params.main`, `analyze_frame`, `save_results.main`):
`counter.<field> = params.get('<key>', counter.<field>)` for each of the
five fields, starting from the `__init__` defaults. -/
def applyParams (d : ParamDict) : DetectionParameters :=
  { min_radius := dictGet d kMinRadius defaultParams.min_radius
    max_radius := dictGet d kMaxRadius defaultParams.max_radius
    min_distance := dictGet d kMinDistance defaultParams.min_distance
    param1 := dictGet d kParam1 defaultParams.param1
    param2 := dictGet d kParam2 defaultParams.param2 }

/-- The parameters `use_custom_params.main` ends up running with, as a
function of the parameter-file content: if `load_parameters` returns
`None` the function returns early and no processing happens at all
(`none`); otherwise the loaded values override the defaults. -/
def ucp_effective (lines : List String) : Option DetectionParameters :=
  (load_parameters lines).map applyParams

/-- The parameters `analyze_frame` ends up running with (when a
parameter file is supplied and exists): a failed or empty load keeps
the `BottleCounter` defaults (the `if params:` truthiness test), a
successful non-empty load overrides them. -/
def analyze_frame_effective (lines : List String) : DetectionParameters :=
  match load_parameters lines with
  | some d => if d.isEmpty then defaultParams else applyParams d
  | none => defaultParams

/-- ASCII digit character for a digit value. -/
def digitChar : ℕ → Char
  | 0 => '0'
  | 1 => '1'
  | 2 => '2'
  | 3 => '3'
  | 4 => '4'
  | 5 => '5'
  | 6 => '6'
  | 7 => '7'
  | 8 => '8'
  | _ => '9'

/-- Decimal digits of `n`, most significant first, with enough fuel. -/
def renderNatFuel : ℕ → ℕ → List Char
  | 0, _ => []
  | fuel + 1, n =>
    if n = 0 then [] else renderNatFuel fuel (n / 10) ++ [digitChar (n % 10)]

/-- Decimal rendering of a natural number. -/
def renderNatChars (n : ℕ) : List Char := if n = 0 then ['0'] else renderNatFuel n n

/-- Python `str()` of an integer (the `{value}` interpolation used when
the tuner saves the parameter file). -/
def renderIntChars (n : ℤ) : List Char :=
  if n < 0 then '-' :: renderNatChars n.natAbs else renderNatChars n.toNat

/-- String form of `renderIntChars`. -/
def renderIntStr (n : ℤ) : String := String.mk (renderIntChars n)

/-- The exact separator written and expected by the file format. -/
def eqSepStr : String := " = "

/-- One saved line `f"{key} = {value}"` (`tune_params.py`, the `'s'` key
handler). -/
def paramLine (k : String) (v : ℤ) : String := k ++ eqSepStr ++ renderIntStr v

/-- The file written by the parameter tuner: the five recognized keys,
one per line. -/
def save_parameters (p : DetectionParameters) : List String :=
  [paramLine kMinRadius p.min_radius,
   paramLine kMaxRadius p.max_radius,
   paramLine kMinDistance p.min_distance,
   paramLine kParam1 p.param1,
   paramLine kParam2 p.param2]

example : parse_param_line ("min_radius = 15") = some (kMinRadius, 15) := by decide
example : parse_param_line ("min_radius : 15") = none := by decide
example : parse_param_line ("") = none := by decide
example : parse_param_line ("  max_radius = -60  ") = some (kMaxRadius, -60) := by decide
example : load_parameters [paramLine kMinRadius 7] = some [(kMinRadius, 7)] := by decide
example : save_parameters defaultParams =
    ["min_radius = 15", "max_radius = 60", "min_distance = 20", "param1 = 30", "param2 = 30"] := by
  decide

/-! ## Frames, array identity, and `process_frame`

To express that `process_frame` never mutates its input frame in place,
NumPy arrays are modelled by an explicit heap: a store of cells indexed
by identity.  `frame.copy()` allocates a fresh cell holding the same
pixel value; the in-place drawing primitives `cv2.circle` / `cv2.putText`
write through a cell index. -/

/-- A color frame: rows of BGR pixels. -/
abbrev Frame : Type := List (List (ℤ × ℤ × ℤ))

/-- A heap of frame objects: `next` is the next fresh identity, `cells`
maps identities to current values (most recent write first). -/
structure Store where
  next : ℕ
  cells : List (ℕ × Frame)
deriving DecidableEq, Repr

/-- Current value of the array object with identity `i`. -/
def Store.read (s : Store) (i : ℕ) : Option Frame :=
  ((s.cells.find? (fun c => c.1 == i)).map (fun c => c.2))

/-- `frame.copy()` and similar allocations: a fresh identity holding
value `v`. -/
def Store.alloc (s : Store) (v : Frame) : Store × ℕ :=
  ({ next := s.next + 1, cells := (s.next, v) :: s.cells }, s.next)

/-- An in-place write (`cv2.circle(result, ...)`, `cv2.putText(result,
...)`) through identity `i`. -/
def Store.write (s : Store) (i : ℕ) (v : Frame) : Store :=
  { next := s.next, cells := (i, v) :: s.cells }

/-- One iteration of the drawing loop of `process_frame`: the two
`cv2.circle` calls on the `result` array (in-place writes through the
`resultId` identity). -/
def drawBottle {G : Type} (ops : CvOps Frame G) (resultId : ℕ) (st : Store) (c : Circle) :
    Store :=
  let cur := (st.read resultId).getD []
  let cur1 := ops.circleOp cur (c.1, c.2.1) c.2.2 (0, 255, 0) 2
  let cur2 := ops.circleOp cur1 (c.1, c.2.1) 2 (0, 0, 255) 3
  st.write resultId cur2

/-- `BottleCounter.process_frame`: run both detectors on the input
frame, reconcile, copy the frame, draw every chosen circle and its
center dot and the count text on the copy, and return the store, the
identity of the drawn copy, and the bottle count. -/
def process_frame {G : Type} (ops : CvOps Frame G) (p : DetectionParameters)
    (s : Store) (frameId : ℕ) : Store × ℕ × ℕ :=
  let frame := (s.read frameId).getD []
  let bottles_hough := detect_bottles_hough ops p frame
  let bottles_contour := detect_bottles_contour ops p frame
  let bottles := reconcile bottles_hough bottles_contour
  let alloc1 := s.alloc frame
  let s1 := alloc1.1
  let resultId := alloc1.2
  let s2 := bottles.foldl (drawBottle ops resultId) s1
  let bottle_count := bottles.length
  let text := ("Bottles: ") ++ renderIntStr (bottle_count : ℤ)
  let s3 := s2.write resultId (ops.putText ((s2.read resultId).getD []) text (20, 40))
  (s3, resultId, bottle_count)

/-! ## Helper lemmas -/

theorem ratFloor_eq (q : ℚ) : Rat.floor q = ⌊q⌋ := by
  rw [Rat.floor_def', Rat.floor_def]

theorem le_npRound (q : ℚ) : q - 1/2 ≤ (npRound q : ℚ) := by
  unfold npRound
  rw [ratFloor_eq]
  have h1 : (⌊q⌋ : ℚ) ≤ q := Int.floor_le q
  have h2 : q < ⌊q⌋ + 1 := Int.lt_floor_add_one q
  split_ifs with ha hb <;> push_cast <;> [linarith; linarith; linarith; linarith]

theorem npRound_le (q : ℚ) : (npRound q : ℚ) ≤ q + 1/2 := by
  unfold npRound
  rw [ratFloor_eq]
  have h1 : (⌊q⌋ : ℚ) ≤ q := Int.floor_le q
  have h2 : q < ⌊q⌋ + 1 := Int.lt_floor_add_one q
  split_ifs with ha hb <;> push_cast <;>
    [linarith; linarith; linarith [le_of_not_lt ha]; linarith [le_of_not_lt ha]]

theorem abs_npRound_sub (q : ℚ) : |(npRound q : ℚ) - q| ≤ 1/2 := by
  rw [abs_le]
  constructor
  · linarith [le_npRound q]
  · linarith [npRound_le q]

theorem int_le_npRound {a : ℤ} {q : ℚ} (h : (a : ℚ) ≤ q) : a ≤ npRound q := by
  have hb := le_npRound q
  have h1 : ((a : ℚ) - 1) < (npRound q : ℚ) := by linarith
  have h2 : a - 1 < npRound q := by exact_mod_cast h1
  omega

theorem npRound_le_int {a : ℤ} {q : ℚ} (h : q ≤ (a : ℚ)) : npRound q ≤ a := by
  have hb := npRound_le q
  have h1 : (npRound q : ℚ) < (a : ℚ) + 1 := by linarith
  have h2 : npRound q < a + 1 := by exact_mod_cast h1
  omega

theorem toUint16_eq_self {n : ℤ} (h0 : 0 ≤ n) (h1 : n < 65536) : toUint16 n = n :=
  Int.emod_eq_of_lt h0 h1

theorem toUint16_nonneg (n : ℤ) : 0 ≤ toUint16 n :=
  Int.emod_nonneg n (by norm_num)

theorem toUint16_lt (n : ℤ) : toUint16 n < 65536 :=
  Int.emod_lt_of_pos n (by norm_num)

theorem foldl_append_eq {α : Type} (l init : List α) :
    l.foldl (fun acc c => acc ++ [c]) init = init ++ l := by
  induction l generalizing init with
  | nil => simp
  | cons c rest ih => simp [List.foldl_cons, ih, List.append_assoc]

theorem hough_postprocess_some (cs : List RawCircle) :
    hough_postprocess (some cs) = cs.map np_uint16_around := by
  simp [hough_postprocess, foldl_append_eq]

/-- The reconcile step as seen by callers: first operand exactly when
its count is strictly larger. -/
theorem reconcile_eq (A B : List Circle) :
    reconcile A B = if B.length < A.length then A else B := rfl

/-! ## Claim theorems -/

/-- C1: `reconcile(A, B)` returns `A` when `count(A) > count(B)` and
returns `B` whenever `count(A) <= count(B)` (so on a tie the
contour-based second operand is returned).  The "returns `A` iff
`count(A) > count(B)`" direction is stated for `A ≠ B`; when `A = B`
both descriptions denote the same value and the biconditional is
degenerate. -/
theorem c1_reconcile_policy (A B : List Circle) :
    (B.length < A.length → reconcile A B = A) ∧
    (A.length ≤ B.length → reconcile A B = B) ∧
    (A ≠ B → (reconcile A B = A ↔ B.length < A.length)) := by
  refine ⟨fun h => by simp [reconcile, h], fun h => by simp [reconcile, Nat.not_lt.mpr h],
    fun hne => ⟨fun hres => ?_, fun h => by simp [reconcile, h]⟩⟩
  by_contra hlt
  rw [reconcile, if_neg hlt] at hres
  exact hne hres.symm

/-- Witness for C1 at concrete inputs. -/
theorem c1_reconcile_policy_witness :
    reconcile [((1 : ℤ), (2 : ℤ), (3 : ℤ))] [] = [((1 : ℤ), (2 : ℤ), (3 : ℤ))] ∧
    reconcile [((1 : ℤ), (2 : ℤ), (3 : ℤ))] [((4 : ℤ), (5 : ℤ), (6 : ℤ))] =
      [((4 : ℤ), (5 : ℤ), (6 : ℤ))] :=
  ⟨(c1_reconcile_policy _ _).1 (by decide), (c1_reconcile_policy _ _).2.1 (by decide)⟩

/-- C9: every circle emitted by the Hough wrapper is the raw float
circle rounded half-to-even and reduced modulo 2^16 componentwise, so
every component lies in `[0, 65535]`; a rounded value that is negative
or at least 65536 wraps around (witnessed by `-1 ↦ 65535` and
`70000.4 ↦ 4464`) instead of failing or being clamped. -/
theorem c9_hough_uint16 {F G : Type} (ops : CvOps F G) (p : DetectionParameters) (frame : F)
    (cs : List RawCircle)
    (hc : ops.houghCircles (ops.gaussianBlur (ops.cvtColor frame)) p = some cs) :
    detect_bottles_hough ops p frame =
      cs.map (fun c => (npRound c.1 % 65536, npRound c.2.1 % 65536, npRound c.2.2 % 65536)) ∧
    (∀ c ∈ detect_bottles_hough ops p frame,
      (0 ≤ c.1 ∧ c.1 ≤ 65535) ∧ (0 ≤ c.2.1 ∧ c.2.1 ≤ 65535) ∧ (0 ≤ c.2.2 ∧ c.2.2 ≤ 65535)) ∧
    toUint16 (npRound (-1)) = 65535 ∧ toUint16 (npRound (70000 + 2/5)) = 4464 := by
  have hmap : detect_bottles_hough ops p frame =
      cs.map (fun c => (npRound c.1 % 65536, npRound c.2.1 % 65536, npRound c.2.2 % 65536)) := by
    show hough_postprocess (ops.houghCircles (ops.gaussianBlur (ops.cvtColor frame)) p) = _
    rw [hc, hough_postprocess_some]
    rfl
  refine ⟨hmap, ?_, ?_, ?_⟩
  · intro c hcmem
    rw [hmap] at hcmem
    obtain ⟨raw, _, rfl⟩ := List.mem_map.mp hcmem
    refine ⟨⟨?_, ?_⟩, ⟨?_, ?_⟩, ?_, ?_⟩ <;>
      first
        | exact toUint16_nonneg _
        | exact Int.lt_add_one_iff.mp (toUint16_lt _)
  · have hf : Rat.floor (-1 : ℚ) = -1 := by rw [ratFloor_eq]; norm_num
    have : npRound (-1 : ℚ) = -1 := by
      unfold npRound
      rw [hf]
      norm_num
    rw [this]
    decide
  · have hf : Rat.floor (70000 + 2/5 : ℚ) = 70000 := by
      rw [ratFloor_eq, Int.floor_eq_iff]
      norm_num
    have : npRound (70000 + 2/5 : ℚ) = 70000 := by
      unfold npRound
      rw [hf]
      norm_num
    rw [this]
    decide

/-- Concrete fixture for the C9 witness. -/
def w9cs : List RawCircle := [(-3/2, 3/2, 30)]

/-- Concrete operations fixture for the C9 witness. -/
def w9ops : CvOps Unit Unit :=
  { cvtColor := fun _ => (), gaussianBlur := id, houghCircles := fun _ _ => some w9cs,
    threshold := id, findContours := fun _ => [], circleOp := fun _ _ _ _ _ => (),
    putText := fun _ _ _ => () }

/-- Witness for C9 at a concrete input. -/
theorem c9_hough_uint16_witness :
    detect_bottles_hough w9ops defaultParams () =
      w9cs.map (fun c => (npRound c.1 % 65536, npRound c.2.1 % 65536, npRound c.2.2 % 65536)) ∧
    (∀ c ∈ detect_bottles_hough w9ops defaultParams (),
      (0 ≤ c.1 ∧ c.1 ≤ 65535) ∧ (0 ≤ c.2.1 ∧ c.2.1 ≤ 65535) ∧ (0 ≤ c.2.2 ∧ c.2.2 ≤ 65535)) ∧
    toUint16 (npRound (-1)) = 65535 ∧ toUint16 (npRound (70000 + 2/5)) = 4464 :=
  c9_hough_uint16 w9ops defaultParams () w9cs rfl

/-- C2: with valid parameters (`0 ≤ minRadius < maxRadius`, both within
the `uint16` representable range used for the output) and the Hough
transform honouring its contract of reporting radii inside
`[minRadius, maxRadius]` (spec §4.2 — the transform itself is a library
call and is quantified over here), every circle emitted by either
detector has `minRadius ≤ radius ≤ maxRadius`.  The contour detector's
radius filter is entirely repository code and needs no contract. -/
theorem c2_radius_band {F G : Type} (ops : CvOps F G) (p : DetectionParameters) (frame : F)
    (h0 : 0 ≤ p.min_radius) (hlt : p.min_radius < p.max_radius) (hub : p.max_radius ≤ 65535)
    (hlib : ∀ g cs, ops.houghCircles g p = some cs →
      ∀ c ∈ cs, (p.min_radius : ℚ) ≤ c.2.2 ∧ c.2.2 ≤ (p.max_radius : ℚ)) :
    (∀ c ∈ detect_bottles_hough ops p frame,
      p.min_radius ≤ c.2.2 ∧ c.2.2 ≤ p.max_radius) ∧
    (∀ c ∈ detect_bottles_contour ops p frame,
      p.min_radius ≤ c.2.2 ∧ c.2.2 ≤ p.max_radius) := by
  constructor
  · intro c hc
    have hc' : c ∈ hough_postprocess (ops.houghCircles (ops.gaussianBlur (ops.cvtColor frame)) p) := hc
    cases hg : ops.houghCircles (ops.gaussianBlur (ops.cvtColor frame)) p with
    | none => rw [hg] at hc'; simp [hough_postprocess] at hc'
    | some cs =>
      rw [hg, hough_postprocess_some] at hc'
      obtain ⟨raw, hraw, rfl⟩ := List.mem_map.mp hc'
      have hband := hlib _ _ hg raw hraw
      have h1 : p.min_radius ≤ npRound raw.2.2 := int_le_npRound hband.1
      have h2 : npRound raw.2.2 ≤ p.max_radius := npRound_le_int hband.2
      have he : toUint16 (npRound raw.2.2) = npRound raw.2.2 :=
        toUint16_eq_self (le_trans h0 h1) (by omega)
      show p.min_radius ≤ toUint16 (npRound raw.2.2) ∧ toUint16 (npRound raw.2.2) ≤ p.max_radius
      rw [he]
      exact ⟨h1, h2⟩
  · intro c hc
    have hc' : c ∈ contour_filter p
        (ops.findContours (ops.threshold (ops.gaussianBlur (ops.cvtColor frame)))) := hc
    unfold contour_filter at hc'
    obtain ⟨b, hb, rfl⟩ := List.mem_map.mp hc'
    have hk := (List.mem_filter.mp hb).2
    simp only [contour_keep, Bool.and_eq_true, decide_eq_true_eq] at hk
    obtain ⟨⟨-, -⟩, hR1, hR2⟩ := hk
    have h0q : (0 : ℚ) ≤ b.mecR := le_trans (by exact_mod_cast h0) hR1
    have htr : pyIntTrunc b.mecR = ⌊b.mecR⌋ := by
      simp [pyIntTrunc, h0q, ratFloor_eq]
    show p.min_radius ≤ pyIntTrunc b.mecR ∧ pyIntTrunc b.mecR ≤ p.max_radius
    rw [htr]
    refine ⟨Int.le_floor.mpr hR1, ?_⟩
    have : (⌊b.mecR⌋ : ℚ) ≤ (p.max_radius : ℚ) := le_trans (Int.floor_le _) hR2
    exact_mod_cast this

/-- Concrete raw circles fixture for the C2 witness. -/
def w2cs : List RawCircle := [(10, 20, 30)]

/-- Concrete boundary fixture for the C2 and C5 witnesses: a large,
nearly circular contour. -/
def w2boundary : Boundary :=
  { area := 2000, perimeter := 150, mecX := 10, mecY := 20, mecR := 25 }

/-- Concrete operations fixture for the C2 and C5 witnesses. -/
def w2ops : CvOps Unit Unit :=
  { cvtColor := fun _ => (), gaussianBlur := id, houghCircles := fun _ _ => some w2cs,
    threshold := id, findContours := fun _ => [w2boundary], circleOp := fun _ _ _ _ _ => (),
    putText := fun _ _ _ => () }

unseal Rat.add Rat.sub Rat.mul Rat.inv in
/-- Witness for C2 at a concrete input. -/
theorem c2_radius_band_witness :
    (∀ c ∈ detect_bottles_hough w2ops defaultParams (),
      defaultParams.min_radius ≤ c.2.2 ∧ c.2.2 ≤ defaultParams.max_radius) ∧
    (∀ c ∈ detect_bottles_contour w2ops defaultParams (),
      defaultParams.min_radius ≤ c.2.2 ∧ c.2.2 ≤ defaultParams.max_radius) :=
  c2_radius_band w2ops defaultParams () (by decide) (by decide) (by decide)
    (by intro g cs h; cases h; decide)

/-- C5: every circle emitted by the contour detector comes from an
extracted boundary whose area is at least 500 and whose circularity is
at least 0.5, where circularity is `4π·A/P²` guarded to 0 for zero
perimeter; boundaries failing a filter contribute nothing. -/
theorem c5_contour_filters {F G : Type} (ops : CvOps F G) (p : DetectionParameters) (frame : F) :
    (∀ c ∈ detect_bottles_contour ops p frame,
      ∃ b ∈ ops.findContours (ops.threshold (ops.gaussianBlur (ops.cvtColor frame))),
        c = boundaryCircle b ∧ 500 ≤ b.area ∧ 1/2 ≤ circularity b) ∧
    (∀ b : Boundary, b.perimeter = 0 → circularity b = 0) := by
  constructor
  · intro c hc
    have hc' : c ∈ contour_filter p
        (ops.findContours (ops.threshold (ops.gaussianBlur (ops.cvtColor frame)))) := hc
    unfold contour_filter at hc'
    obtain ⟨b, hb, rfl⟩ := List.mem_map.mp hc'
    have hmem := (List.mem_filter.mp hb).1
    have hk := (List.mem_filter.mp hb).2
    simp only [contour_keep, Bool.and_eq_true, decide_eq_true_eq] at hk
    exact ⟨b, hmem, rfl, hk.1.1, hk.1.2⟩
  · intro b hbp
    simp [circularity, hbp]

unseal Rat.add Rat.sub Rat.mul Rat.inv in
/-- Witness for C5 at a concrete input. -/
theorem c5_contour_filters_witness :
    ∃ b ∈ w2ops.findContours (w2ops.threshold (w2ops.gaussianBlur (w2ops.cvtColor ()))),
      ((10 : ℤ), (20 : ℤ), (25 : ℤ)) = boundaryCircle b ∧
      500 ≤ b.area ∧ 1/2 ≤ circularity b :=
  (c5_contour_filters w2ops defaultParams ()).1 ((10 : ℤ), (20 : ℤ), (25 : ℤ)) (by decide)

/-- Squared Euclidean distance of two raw (float) circle centers. -/
def rawSepSq (a b : RawCircle) : ℚ :=
  (a.1 - b.1) * (a.1 - b.1) + (a.2.1 - b.2.1) * (a.2.1 - b.2.1)

/-- Squared Euclidean distance of two emitted circle centers. -/
def centerDistSq (a b : Circle) : ℤ :=
  (a.1 - b.1) * (a.1 - b.1) + (a.2.1 - b.2.1) * (a.2.1 - b.2.1)

/-- One plus the Chebyshev (max-coordinate) distance of two emitted
circle centers. -/
def chebP1 (a b : Circle) : ℕ :=
  max (a.1 - b.1).natAbs (a.2.1 - b.2.1).natAbs + 1

/-- The separation that survives the rounding of centers to integers:
`minDistance² ≤ 2·(chebyshev distance + 1)²`; up to the ≤ √2 error
introduced by rounding, the centers are still `minDistance` apart. -/
def roundedSepOK (m : ℤ) (a b : Circle) : Prop :=
  m * m ≤ 2 * ((chebP1 a b * chebP1 a b : ℕ) : ℤ)

instance (m : ℤ) (a b : Circle) : Decidable (roundedSepOK m a b) := by
  unfold roundedSepOK
  infer_instance

/-- Rounding both centers of a pair moves each coordinate by at most
1/2, so a raw squared separation of `m²` survives as
`m² ≤ 2·(M+1)²` for `M` the integer Chebyshev distance. -/
theorem round_pair_sq {m : ℤ} {x1 y1 x2 y2 : ℚ}
    (hsep : (m : ℚ) * m ≤ (x1 - x2) * (x1 - x2) + (y1 - y2) * (y1 - y2)) :
    m * m ≤ 2 * (((max (npRound x1 - npRound x2).natAbs (npRound y1 - npRound y2).natAbs + 1) *
      (max (npRound x1 - npRound x2).natAbs (npRound y1 - npRound y2).natAbs + 1) : ℕ) : ℤ) := by
  set dxi : ℤ := npRound x1 - npRound x2 with hdxi
  set dyi : ℤ := npRound y1 - npRound y2 with hdyi
  set M : ℕ := max dxi.natAbs dyi.natAbs with hM
  have coordBound : ∀ u v : ℚ, ∀ w : ℤ, npRound u - npRound v = w →
      w.natAbs ≤ M → |u - v| ≤ (M : ℚ) + 1 := by
    intro u v w hw hwM
    have e1 := abs_npRound_sub u
    have e2 := abs_npRound_sub v
    have h6 : |(w : ℚ)| ≤ (M : ℚ) := by
      rw [← Int.cast_abs, Int.abs_eq_natAbs]
      exact_mod_cast hwM
    have h7 : |u - v - (w : ℚ)| ≤ 1 := by
      have hrw : u - v - (w : ℚ) = -(((npRound u : ℚ) - u) - ((npRound v : ℚ) - v)) := by
        rw [← hw]
        push_cast
        ring
      rw [hrw, abs_neg]
      calc |((npRound u : ℚ) - u) - ((npRound v : ℚ) - v)|
          ≤ |(npRound u : ℚ) - u| + |(npRound v : ℚ) - v| := abs_sub _ _
        _ ≤ 1 := by linarith
    calc |u - v| = |(w : ℚ) + (u - v - (w : ℚ))| := by ring_nf
      _ ≤ |(w : ℚ)| + |u - v - (w : ℚ)| := abs_add _ _
      _ ≤ (M : ℚ) + 1 := by linarith
  have hdx : |x1 - x2| ≤ (M : ℚ) + 1 :=
    coordBound x1 x2 dxi hdxi.symm (le_max_left _ _)
  have hdy : |y1 - y2| ≤ (M : ℚ) + 1 :=
    coordBound y1 y2 dyi hdyi.symm (le_max_right _ _)
  have a1 : (x1 - x2) * (x1 - x2) ≤ ((M : ℚ) + 1) * ((M : ℚ) + 1) := by
    have h := mul_self_le_mul_self (abs_nonneg (x1 - x2)) hdx
    rwa [abs_mul_abs_self] at h
  have a2 : (y1 - y2) * (y1 - y2) ≤ ((M : ℚ) + 1) * ((M : ℚ) + 1) := by
    have h := mul_self_le_mul_self (abs_nonneg (y1 - y2)) hdy
    rwa [abs_mul_abs_self] at h
  have hq : (m : ℚ) * m ≤ ((2 * (((M + 1) * (M + 1) : ℕ)) : ℤ) : ℚ) := by
    push_cast
    linarith
  exact_mod_cast hq

/-- Concrete raw circles fixture for C6: float centers `(0.5, 0)` and
`(14.5, 14.5)` are `√406.25 ≈ 20.16 ≥ 20` apart, but both round (half
to even) toward each other. -/
def w6cs : List RawCircle := [(1/2, 0, 30), (29/2, 29/2, 30)]

/-- Concrete operations fixture for the C6 theorems. -/
def w6ops : CvOps Unit Unit :=
  { cvtColor := fun _ => (), gaussianBlur := id, houghCircles := fun _ _ => some w6cs,
    threshold := id, findContours := fun _ => [], circleOp := fun _ _ _ _ _ => (),
    putText := fun _ _ _ => () }

unseal Rat.add Rat.sub Rat.mul Rat.inv in
/-- C6 counterexample: with the default `minDistance = 20`, a Hough
output whose raw centers are pairwise at least 20 apart is emitted as
the circles `(0,0,30)` and `(14,14,30)`, whose centers are only
`√392 ≈ 19.8 < 20` apart — the claimed separation of *emitted* centers
fails after the `np.uint16(np.around(...))` rounding. -/
theorem c6_min_distance_counterexample :
    defaultParams.min_distance = 20 ∧
    w6cs.Pairwise (fun a b =>
      ((defaultParams.min_distance : ℚ)) * (defaultParams.min_distance : ℚ) ≤ rawSepSq a b) ∧
    detect_bottles_hough w6ops defaultParams () = [(0, 0, 30), (14, 14, 30)] ∧
    centerDistSq (0, 0, 30) (14, 14, 30) <
      defaultParams.min_distance * defaultParams.min_distance := by
  decide

/-- C6 amended: assuming the library's raw centers honour the spec's
separation contract (pairwise squared distance at least `minDistance²`)
and round into the `uint16` range without wrapping, the emitted integer
centers satisfy the rounding-degraded separation `roundedSepOK`:
`minDistance² ≤ 2·(chebyshev+1)²`, i.e. they can be closer than
`minDistance`, but by less than `√2` (the claimed verbatim `≥
minDistance` separation of emitted centers is refuted by the
counterexample). -/
theorem c6_min_distance_amended {F G : Type} (ops : CvOps F G) (p : DetectionParameters)
    (frame : F) (cs : List RawCircle)
    (hc : ops.houghCircles (ops.gaussianBlur (ops.cvtColor frame)) p = some cs)
    (hsep : cs.Pairwise (fun a b =>
      (p.min_distance : ℚ) * (p.min_distance : ℚ) ≤ rawSepSq a b))
    (hin : ∀ c ∈ cs, (0 ≤ npRound c.1 ∧ npRound c.1 < 65536) ∧
      (0 ≤ npRound c.2.1 ∧ npRound c.2.1 < 65536)) :
    (detect_bottles_hough ops p frame).Pairwise (roundedSepOK p.min_distance) := by
  have hmap : detect_bottles_hough ops p frame = cs.map np_uint16_around := by
    show hough_postprocess (ops.houghCircles (ops.gaussianBlur (ops.cvtColor frame)) p) = _
    rw [hc, hough_postprocess_some]
  rw [hmap, List.pairwise_map]
  refine hsep.imp_of_mem ?_
  intro a b ha hb hab
  have hina := hin a ha
  have hinb := hin b hb
  have ea1 : toUint16 (npRound a.1) = npRound a.1 := toUint16_eq_self hina.1.1 hina.1.2
  have ea2 : toUint16 (npRound a.2.1) = npRound a.2.1 := toUint16_eq_self hina.2.1 hina.2.2
  have eb1 : toUint16 (npRound b.1) = npRound b.1 := toUint16_eq_self hinb.1.1 hinb.1.2
  have eb2 : toUint16 (npRound b.2.1) = npRound b.2.1 := toUint16_eq_self hinb.2.1 hinb.2.2
  show roundedSepOK p.min_distance (np_uint16_around a) (np_uint16_around b)
  unfold roundedSepOK chebP1 np_uint16_around
  simp only [ea1, ea2, eb1, eb2]
  exact round_pair_sq hab

unseal Rat.add Rat.sub Rat.mul Rat.inv in
/-- Witness for the amended C6 at a concrete input. -/
theorem c6_min_distance_amended_witness :
    (detect_bottles_hough w6ops defaultParams ()).Pairwise
      (roundedSepOK defaultParams.min_distance) :=
  c6_min_distance_amended w6ops defaultParams () w6cs rfl (by decide) (by decide)

/-- A parameter value violating the spec's bounds: `minRadius >=
maxRadius` and non-positive distance/sensitivity values. -/
def invalidParams : DetectionParameters :=
  { min_radius := 60, max_radius := 15, min_distance := 0, param1 := 0, param2 := 0 }

/-- Concrete raw circles fixture for the C4 theorems. -/
def w4cs : List RawCircle := [(100, 100, 30)]

/-- Trivial operations fixture whose Hough call reports nothing. -/
def w4opsNone : CvOps Unit Unit :=
  { cvtColor := fun _ => (), gaussianBlur := id, houghCircles := fun _ _ => none,
    threshold := id, findContours := fun _ => [], circleOp := fun _ _ _ _ _ => (),
    putText := fun _ _ _ => () }

/-- Operations fixture whose Hough call reports `w4cs`. -/
def w4opsSome : CvOps Unit Unit :=
  { w4opsNone with houghCircles := fun _ _ => some w4cs }

unseal Rat.add Rat.sub Rat.mul Rat.inv in
/-- C4 counterexample: with parameters violating every required bound
(`minRadius >= maxRadius`, non-positive distance and sensitivities) the
detector is *not* rejected before detection: its output tracks the
Hough transform's output (non-empty for one library behaviour, empty
for another), so detection did run — there is no `InvalidParameters`
rejection anywhere in the code. -/
theorem c4_no_validation_counterexample :
    invalidParams.max_radius ≤ invalidParams.min_radius ∧
    invalidParams.min_distance ≤ 0 ∧ invalidParams.param1 ≤ 0 ∧ invalidParams.param2 ≤ 0 ∧
    detect_bottles_hough w4opsSome invalidParams () = [(100, 100, 30)] ∧
    detect_bottles_hough w4opsNone invalidParams () = [] := by
  decide

/-- C4 amended: no validation is performed — for parameter values
outside the required bounds the detector still invokes the Hough
transform, with the parameter record passed through unmodified (the
library call below answers only when it receives exactly `p`, and it is
answered), and returns its post-processed circles; the values are not
auto-corrected and no error is raised. -/
theorem c4_no_validation {F G : Type} (ops : CvOps F G) (p : DetectionParameters) (frame : F)
    (cs : List RawCircle)
    (hinv : p.max_radius ≤ p.min_radius ∨ p.min_distance ≤ 0 ∨ p.param1 ≤ 0 ∨ p.param2 ≤ 0) :
    detect_bottles_hough
      { ops with houghCircles := fun _ q => if q = p then some cs else none } p frame =
      cs.map np_uint16_around := by
  show hough_postprocess (if p = p then some cs else none) = _
  rw [if_pos rfl, hough_postprocess_some]

/-- Witness for the amended C4 at a concrete input. -/
theorem c4_no_validation_witness :
    detect_bottles_hough
      { w4opsNone with houghCircles := fun _ q => if q = invalidParams then some w4cs else none }
      invalidParams () = w4cs.map np_uint16_around :=
  c4_no_validation w4opsNone invalidParams () w4cs (Or.inl (by decide))

/-- If the accumulator is already `None`, the rest of the load loop
keeps it `None`. -/
theorem load_foldl_none (lines : List String) :
    lines.foldl
      (fun acc line => acc.bind (fun d => (parse_param_line line).map (fun kv => kv :: d)))
      none = none := by
  induction lines with
  | nil => rfl
  | cons l rest ih => simpa using ih

/-- Any line that fails to parse makes the load fail from any
accumulator state. -/
theorem load_foldl_fail (lines : List String) (acc : ParamDict)
    (h : ∃ l ∈ lines, parse_param_line l = none) :
    lines.foldl
      (fun acc line => acc.bind (fun d => (parse_param_line line).map (fun kv => kv :: d)))
      (some acc) = none := by
  induction lines generalizing acc with
  | nil => simp at h
  | cons a rest ih =>
    obtain ⟨l, hmem, hfail⟩ := h
    rcases List.mem_cons.mp hmem with rfl | hmem'
    · rw [List.foldl_cons]
      simp only [Option.some_bind, hfail, Option.map_none]
      exact load_foldl_none rest
    · rw [List.foldl_cons]
      cases ha : parse_param_line a with
      | none =>
        simp only [Option.some_bind, ha, Option.map_none]
        exact load_foldl_none rest
      | some kv =>
        simp only [Option.some_bind, ha, Option.map_some]
        exact ih (kv :: acc) ⟨l, hmem', hfail⟩

/-- Any line that fails to parse makes the whole load fail. -/
theorem load_parameters_fail {lines : List String}
    (h : ∃ l ∈ lines, parse_param_line l = none) : load_parameters lines = none :=
  load_foldl_fail lines [] h

/-- The malformed line of the spec's end-to-end scenario 4. -/
def w3badLine : String := "min_radius : 15"

/-- C3 counterexample: for the file consisting of the line
`min_radius : 15`, the load does fail as a whole (`None`), but the
cited caller (`use_custom_params.main`, lines 34-36) then returns early
and processes nothing — it does *not* fall back to the default
parameter values (that fallback happens only in `analyze_frame`). -/
theorem c3_fallback_counterexample :
    load_parameters [w3badLine] = none ∧
    ucp_effective [w3badLine] ≠ some defaultParams ∧
    analyze_frame_effective [w3badLine] = defaultParams := by
  decide

/-- C3 amended: a parameter source with any malformed line fails to
load as a whole with the failure value `None` (no partial parameters);
no caller crashes: `analyze_frame` falls back to the default parameter
values, while `use_custom_params.main` aborts processing without
falling back to defaults.  In particular `min_radius : 15` fails to
parse. -/
theorem c3_parameter_error (lines : List String)
    (h : ∃ l ∈ lines, parse_param_line l = none) :
    load_parameters lines = none ∧
    ucp_effective lines = none ∧
    analyze_frame_effective lines = defaultParams ∧
    parse_param_line w3badLine = none := by
  have hl := load_parameters_fail h
  refine ⟨hl, ?_, ?_, by decide⟩
  · simp [ucp_effective, hl]
  · simp [analyze_frame_effective, hl]

/-- Witness for the amended C3 at a concrete input: a file with one
good line and the malformed line. -/
theorem c3_parameter_error_witness :
    load_parameters [paramLine kMinRadius 15, w3badLine] = none ∧
    ucp_effective [paramLine kMinRadius 15, w3badLine] = none ∧
    analyze_frame_effective [paramLine kMinRadius 15, w3badLine] = defaultParams ∧
    parse_param_line w3badLine = none :=
  c3_parameter_error [paramLine kMinRadius 15, w3badLine] ⟨w3badLine, by decide, by decide⟩

/-- C10: any line that does not split into exactly one key and one
value around the exact separator `' = '` (after stripping surrounding
whitespace) — including a blank line — makes the entire load return the
failure value `None`, even when the other lines parse correctly; the
`Option` result type has no partial outcome. -/
theorem c10_line_format (lines : List String)
    (h : ∃ l ∈ lines, (splitEq (pyStrip l).data).length ≠ 2) :
    load_parameters lines = none := by
  apply load_parameters_fail
  obtain ⟨l, hmem, hlen⟩ := h
  refine ⟨l, hmem, ?_⟩
  unfold parse_param_line
  cases hs : splitEq (pyStrip l).data with
  | nil => rfl
  | cons a t =>
    cases t with
    | nil => rfl
    | cons b t2 =>
      cases t2 with
      | nil => simp [hs] at hlen
      | cons c t3 => rfl

/-- A well-formed five-key parameter file followed by a blank line. -/
def w10lines : List String :=
  [paramLine kMinRadius 15, paramLine kMaxRadius 60, paramLine kMinDistance 20,
   paramLine kParam1 30, paramLine kParam2 30, ""]

/-- Witness for C10 at a concrete input: five correct lines plus a
blank line still fail as a whole. -/
theorem c10_line_format_witness : load_parameters w10lines = none :=
  c10_line_format w10lines ⟨"", by decide, by decide⟩

/-! ## Round-trip lemmas for the parameter file format (claim C7) -/

theorem isDigitChar_digitChar : ∀ d : ℕ, d < 10 → isDigitChar (digitChar d) = true := by
  decide

theorem digitVal_digitChar : ∀ d : ℕ, d < 10 → digitVal (digitChar d) = d := by
  decide

theorem not_pySpace_of_digit {c : Char} (h : isDigitChar c = true) : isPySpace c = false := by
  by_contra hs
  rw [Bool.not_eq_false, isPySpace] at hs
  simp only [Bool.or_eq_true, beq_iff_eq] at hs
  rw [isDigitChar, Bool.and_eq_true, decide_eq_true_eq, decide_eq_true_eq] at h
  rcases hs with ((((h1 | h1) | h1) | h1) | h1) | h1 <;> subst h1 <;> simp at h

theorem ne_plus_of_digit {c : Char} (h : isDigitChar c = true) : c ≠ '+' := by
  intro he
  subst he
  simp [isDigitChar] at h

theorem ne_minus_of_digit {c : Char} (h : isDigitChar c = true) : c ≠ '-' := by
  intro he
  subst he
  simp [isDigitChar] at h

theorem ne_space_of_not_pySpace {c : Char} (h : isPySpace c = false) : c ≠ ' ' := by
  intro he
  subst he
  simp [isPySpace] at h

theorem dropWhile_eq_self_of_forall {p : Char → Bool} {l : List Char}
    (h : ∀ c ∈ l, p c = false) : l.dropWhile p = l := by
  cases l with
  | nil => rfl
  | cons c rest =>
    rw [List.dropWhile_cons, h c (List.mem_cons_self c rest)]
    simp

theorem pyStrip_eq_self_of_forall {l : List Char} (h : ∀ c ∈ l, isPySpace c = false) :
    pyStrip (String.mk l) = String.mk l := by
  unfold pyStrip
  rw [dropWhile_eq_self_of_forall h,
    dropWhile_eq_self_of_forall (fun c hc => h c (List.mem_reverse.mp hc)), List.reverse_reverse]

theorem pyStrip_concat {c : Char} {l0 : List Char} {d : Char}
    (hh : isPySpace c = false) (hd : isPySpace d = false) :
    pyStrip (String.mk (c :: l0 ++ [d])) = String.mk (c :: l0 ++ [d]) := by
  unfold pyStrip
  have h1 : (c :: l0 ++ [d]).dropWhile isPySpace = c :: l0 ++ [d] := by
    rw [List.cons_append, List.dropWhile_cons, hh]
    simp
  have h2 : (c :: l0 ++ [d]).reverse = d :: (c :: l0).reverse := by
    rw [List.reverse_append, List.reverse_singleton, List.singleton_append]
  have h3 : (d :: (c :: l0).reverse).dropWhile isPySpace = d :: (c :: l0).reverse := by
    rw [List.dropWhile_cons, hd]
    simp
  rw [h1, h2, h3, ← h2, List.reverse_reverse]

theorem renderNatFuel_digits :
    ∀ fuel n : ℕ, ∀ c ∈ renderNatFuel fuel n, isDigitChar c = true := by
  intro fuel
  induction fuel with
  | zero => intro n c hc; simp [renderNatFuel] at hc
  | succ f ih =>
    intro n c hc
    rw [renderNatFuel] at hc
    by_cases hn : n = 0
    · simp [hn] at hc
    · rw [if_neg hn] at hc
      rcases List.mem_append.mp hc with hc' | hc'
      · exact ih _ c hc'
      · rw [List.mem_singleton] at hc'
        subst hc'
        exact isDigitChar_digitChar _ (Nat.mod_lt _ (by norm_num))

theorem renderNatChars_digits (n : ℕ) : ∀ c ∈ renderNatChars n, isDigitChar c = true := by
  intro c hc
  unfold renderNatChars at hc
  by_cases hn : n = 0
  · rw [if_pos hn, List.mem_singleton] at hc
    subst hc
    decide
  · rw [if_neg hn] at hc
    exact renderNatFuel_digits n n c hc

theorem renderNatChars_concat (n : ℕ) :
    ∃ l0 d, renderNatChars n = l0 ++ [d] ∧ isDigitChar d = true := by
  unfold renderNatChars
  by_cases hn : n = 0
  · exact ⟨[], '0', by rw [if_pos hn]; rfl, by decide⟩
  · obtain ⟨f, hf⟩ := Nat.exists_eq_succ_of_ne_zero hn
    refine ⟨renderNatFuel f (n / 10), digitChar (n % 10), ?_, ?_⟩
    · rw [if_neg hn, hf, renderNatFuel, if_neg (hf ▸ hn)]
    · exact isDigitChar_digitChar _ (Nat.mod_lt _ (by norm_num))

theorem renderIntChars_not_space (v : ℤ) : ∀ c ∈ renderIntChars v, isPySpace c = false := by
  intro c hc
  unfold renderIntChars at hc
  by_cases hv : v < 0
  · rw [if_pos hv] at hc
    rcases List.mem_cons.mp hc with rfl | hc'
    · decide
    · exact not_pySpace_of_digit (renderNatChars_digits _ c hc')
  · rw [if_neg hv] at hc
    exact not_pySpace_of_digit (renderNatChars_digits _ c hc)

theorem renderIntChars_concat (v : ℤ) :
    ∃ l0 d, renderIntChars v = l0 ++ [d] ∧ isDigitChar d = true := by
  unfold renderIntChars
  by_cases hv : v < 0
  · obtain ⟨l0, d, hl, hd⟩ := renderNatChars_concat v.natAbs
    exact ⟨'-' :: l0, d, by rw [if_pos hv, hl]; rfl, hd⟩
  · obtain ⟨l0, d, hl, hd⟩ := renderNatChars_concat v.toNat
    exact ⟨l0, d, by rw [if_neg hv, hl], hd⟩

theorem parseDigits_append {l : List Char} {acc v : ℕ} (c : Char)
    (hl : parseDigits l acc = some v) :
    parseDigits (l ++ [c]) acc =
      if isDigitChar c then some (v * 10 + digitVal c) else none := by
  induction l generalizing acc with
  | nil =>
    rw [parseDigits] at hl
    injection hl with hv
    subst hv
    rfl
  | cons a rest ih =>
    rw [List.cons_append, parseDigits]
    rw [parseDigits] at hl
    by_cases ha : isDigitChar a = true
    · rw [if_pos ha] at hl ⊢
      exact ih hl
    · rw [if_neg ha] at hl
      cases hl

theorem parseDigits_renderNatFuel :
    ∀ fuel n acc : ℕ, n ≤ fuel →
      parseDigits (renderNatFuel fuel n) acc =
        some (acc * 10 ^ (renderNatFuel fuel n).length + n) := by
  intro fuel
  induction fuel with
  | zero =>
    intro n acc hn
    interval_cases n
    simp [renderNatFuel, parseDigits]
  | succ f ih =>
    intro n acc hn
    by_cases hz : n = 0
    · subst hz
      simp [renderNatFuel, parseDigits]
    · rw [renderNatFuel, if_neg hz]
      have hfuel : n / 10 ≤ f := by
        have : n / 10 < n := Nat.div_lt_self (Nat.pos_of_ne_zero hz) (by norm_num)
        omega
      have hrec := ih (n / 10) acc hfuel
      rw [parseDigits_append _ hrec,
        if_pos (isDigitChar_digitChar _ (Nat.mod_lt _ (by norm_num))),
        digitVal_digitChar _ (Nat.mod_lt _ (by norm_num))]
      congr 1
      rw [List.length_append, List.length_singleton, pow_succ]
      have := Nat.div_add_mod n 10
      ring_nf
      omega

theorem parseNatChars_renderNatChars (n : ℕ) :
    parseNatChars (renderNatChars n) = some n := by
  by_cases hz : n = 0
  · subst hz
    decide
  · have hform : renderNatChars n = renderNatFuel n n := by rw [renderNatChars, if_neg hz]
    have hfull : parseDigits (renderNatChars n) 0 = some n := by
      rw [hform]
      have h := parseDigits_renderNatFuel n n 0 (le_refl n)
      simpa using h
    cases hr : renderNatChars n with
    | nil =>
      rw [hr] at hfull
      simp only [parseDigits] at hfull
      injection hfull with h0
      exact absurd h0.symm hz
    | cons c t =>
      have hcdig : isDigitChar c = true :=
        renderNatChars_digits n c (by rw [hr]; exact List.mem_cons_self c t)
      rw [hr] at hfull
      simp only [parseDigits, if_pos hcdig] at hfull
      simp only [parseNatChars, if_pos hcdig]
      simpa using hfull

theorem parsePyInt_renderIntStr (v : ℤ) : parsePyInt (renderIntStr v) = some v := by
  unfold parsePyInt renderIntStr
  rw [pyStrip_eq_self_of_forall (renderIntChars_not_space v)]
  show parsePyIntChars (renderIntChars v) = some v
  unfold renderIntChars
  by_cases hv : v < 0
  · rw [if_pos hv]
    simp only [parsePyIntChars]
    rw [parseNatChars_renderNatChars]
    simp only [if_neg (by decide : ¬('-' = '+'))]
    norm_num
    rw [abs_of_neg hv]
    omega
  · rw [if_neg hv]
    cases hr : renderNatChars v.toNat with
    | nil =>
      obtain ⟨l0, d, hcat, -⟩ := renderNatChars_concat v.toNat
      rw [hr] at hcat
      exact absurd (List.append_eq_nil.mp hcat.symm).2 (List.cons_ne_nil d [])
    | cons c t =>
      have hcdig : isDigitChar c = true :=
        renderNatChars_digits v.toNat c (by rw [hr]; exact List.mem_cons_self c t)
      simp only [parsePyIntChars]
      rw [if_neg (ne_plus_of_digit hcdig), if_neg (ne_minus_of_digit hcdig), ← hr,
        parseNatChars_renderNatChars]
      norm_num
      omega

theorem splitEq_ne_nil (l : List Char) : splitEq l ≠ [] := by
  match l with
  | [] => simp [splitEq]
  | [c] => simp [splitEq]
  | [c, d] => simp [splitEq]
  | c :: d :: e :: rest =>
    unfold splitEq
    split
    · simp
    · split <;> simp

theorem splitEq_cons_of_ne {c : Char} {l : List Char} {h : List Char} {t : List (List Char)}
    (hc : c ≠ ' ') (hl : splitEq l = h :: t) : splitEq (c :: l) = (c :: h) :: t := by
  match l with
  | [] =>
    simp only [splitEq] at hl
    injection hl with h1 h2
    subst h1
    subst h2
    rfl
  | [d] =>
    simp only [splitEq] at hl
    injection hl with h1 h2
    subst h1
    subst h2
    rfl
  | d :: e :: rest =>
    show splitEq (c :: d :: e :: rest) = (c :: h) :: t
    unfold splitEq
    rw [if_neg (by intro hand; exact hc hand.1)]
    rw [hl]

theorem splitEq_no_space {l : List Char} (hns : ∀ c ∈ l, c ≠ ' ') : splitEq l = [l] := by
  induction l with
  | nil => rfl
  | cons c rest ih =>
    exact splitEq_cons_of_ne (hns c (List.mem_cons_self c rest))
      (ih (fun x hx => hns x (List.mem_cons_of_mem c hx)))

theorem splitEq_key (ks : List Char) (tail : List Char) (hks : ∀ c ∈ ks, c ≠ ' ') :
    splitEq (ks ++ ' ' :: '=' :: ' ' :: tail) = ks :: splitEq tail := by
  induction ks with
  | nil =>
    show splitEq (' ' :: '=' :: ' ' :: tail) = [] :: splitEq tail
    conv_lhs => rw [splitEq]
    rw [if_pos ⟨rfl, rfl, rfl⟩]
  | cons c ks' ih =>
    rw [List.cons_append]
    exact splitEq_cons_of_ne (hks c (List.mem_cons_self c ks'))
      (ih (fun x hx => hks x (List.mem_cons_of_mem c hx)))

theorem paramLine_data (k : String) (v : ℤ) :
    (paramLine k v).data = k.data ++ ' ' :: '=' :: ' ' :: renderIntChars v := by
  unfold paramLine renderIntStr
  rw [String.data_append, String.data_append]
  have he : eqSepStr.data = [' ', '=', ' '] := by decide
  rw [he]
  simp

theorem parse_paramLine (k : String) (v : ℤ)
    (hk : ∀ c ∈ k.data, isPySpace c = false) (hne : k.data ≠ []) :
    parse_param_line (paramLine k v) = some (k, v) := by
  obtain ⟨kc, krest, hkd⟩ := List.exists_cons_of_ne_nil hne
  obtain ⟨r0, rd, hrd, hdig⟩ := renderIntChars_concat v
  have hshape : k.data ++ ' ' :: '=' :: ' ' :: renderIntChars v =
      kc :: (krest ++ ' ' :: '=' :: ' ' :: r0) ++ [rd] := by
    rw [hkd, hrd]
    simp [List.append_assoc]
  have hstrip : pyStrip (paramLine k v) = paramLine k v := by
    have hline : paramLine k v = String.mk (kc :: (krest ++ ' ' :: '=' :: ' ' :: r0) ++ [rd]) := by
      have : (paramLine k v).data = kc :: (krest ++ ' ' :: '=' :: ' ' :: r0) ++ [rd] := by
        rw [paramLine_data, hshape]
      rw [← this]
    rw [hline]
    exact pyStrip_concat (hk kc (by rw [hkd]; exact List.mem_cons_self kc krest))
      (not_pySpace_of_digit hdig)
  unfold parse_param_line
  rw [hstrip, paramLine_data, splitEq_key _ _
    (fun c hc => ne_space_of_not_pySpace (hk c hc)),
    splitEq_no_space (fun c hc =>
      ne_space_of_not_pySpace (renderIntChars_not_space v c hc))]
  show (parsePyInt (String.mk (renderIntChars v))).map
    (fun n => (String.mk k.data, n)) = some (k, v)
  rw [show parsePyInt (String.mk (renderIntChars v)) = some v from parsePyInt_renderIntStr v]
  simp

theorem load_save (p : DetectionParameters) :
    load_parameters (save_parameters p) =
      some [(kParam2, p.param2), (kParam1, p.param1), (kMinDistance, p.min_distance),
        (kMaxRadius, p.max_radius), (kMinRadius, p.min_radius)] := by
  have h1 := parse_paramLine kMinRadius p.min_radius (by decide) (by decide)
  have h2 := parse_paramLine kMaxRadius p.max_radius (by decide) (by decide)
  have h3 := parse_paramLine kMinDistance p.min_distance (by decide) (by decide)
  have h4 := parse_paramLine kParam1 p.param1 (by decide) (by decide)
  have h5 := parse_paramLine kParam2 p.param2 (by decide) (by decide)
  simp [load_parameters, save_parameters, h1, h2, h3, h4, h5]

theorem applyParams_load_save (p : DetectionParameters) :
    applyParams [(kParam2, p.param2), (kParam1, p.param1), (kMinDistance, p.min_distance),
      (kMaxRadius, p.max_radius), (kMinRadius, p.min_radius)] = p := by
  have e1 : (kParam2 == kMinRadius) = false := by decide
  have e2 : (kParam1 == kMinRadius) = false := by decide
  have e3 : (kMinDistance == kMinRadius) = false := by decide
  have e4 : (kMaxRadius == kMinRadius) = false := by decide
  have e5 : (kMinRadius == kMinRadius) = true := by decide
  have f1 : (kParam2 == kMaxRadius) = false := by decide
  have f2 : (kParam1 == kMaxRadius) = false := by decide
  have f3 : (kMinDistance == kMaxRadius) = false := by decide
  have f4 : (kMaxRadius == kMaxRadius) = true := by decide
  have g1 : (kParam2 == kMinDistance) = false := by decide
  have g2 : (kParam1 == kMinDistance) = false := by decide
  have g3 : (kMinDistance == kMinDistance) = true := by decide
  have i1 : (kParam2 == kParam1) = false := by decide
  have i2 : (kParam1 == kParam1) = true := by decide
  have j1 : (kParam2 == kParam2) = true := by decide
  simp [applyParams, dictGet, List.find?, e1, e2, e3, e4, e5, f1, f2, f3, f4, g1, g2, g3,
    i1, i2, j1]

/-- C7: loading a well-formed parameter file, saving the resulting
parameters in the tuner's format, and loading the saved file again
yields `DetectionParameters` identical to those of the first load (the
load-save-load round trip is the identity on the five recognized
parameter values). -/
theorem c7_param_roundtrip (lines : List String) (d : ParamDict)
    (h : load_parameters lines = some d) :
    ucp_effective (save_parameters (applyParams d)) = some (applyParams d) := by
  unfold ucp_effective
  rw [load_save (applyParams d)]
  simp [applyParams_load_save (applyParams d)]

/-- Witness for C7 at a concrete input. -/
theorem c7_param_roundtrip_witness :
    ucp_effective (save_parameters (applyParams [(kMinRadius, 7)])) =
      some (applyParams [(kMinRadius, 7)]) :=
  c7_param_roundtrip [paramLine kMinRadius 7] [(kMinRadius, 7)] (by decide)

/-! ## Frame non-mutation (claim C8) -/

theorem store_read_write_ne (s : Store) (i j : ℕ) (v : Frame) (h : j ≠ i) :
    (s.write i v).read j = s.read j := by
  unfold Store.write Store.read
  rw [List.find?_cons_of_neg]
  simpa using Ne.symm h

theorem store_read_alloc_ne (s : Store) (v : Frame) (j : ℕ) (h : j ≠ s.next) :
    ((s.alloc v).1).read j = s.read j := by
  unfold Store.alloc Store.read
  rw [List.find?_cons_of_neg]
  simpa using Ne.symm h

theorem foldl_drawBottle_read {G : Type} (ops : CvOps Frame G) (rid fid : ℕ)
    (hne : fid ≠ rid) (l : List Circle) (st : Store) :
    (l.foldl (drawBottle ops rid) st).read fid = st.read fid := by
  induction l generalizing st with
  | nil => rfl
  | cons c rest ih =>
    rw [List.foldl_cons, ih]
    exact store_read_write_ne _ _ _ _ hne

/-- C8: a full `process_frame` call leaves the input frame object
unchanged — the drawing of circles and count text happens through the
identity freshly allocated for `frame.copy()`, which is also the
identity that is returned, and it is distinct from the input frame's
identity.  The detectors read the frame value only. -/
theorem c8_frame_not_mutated {G : Type} (ops : CvOps Frame G) (p : DetectionParameters)
    (s : Store) (frameId : ℕ) (h : frameId < s.next) :
    ((process_frame ops p s frameId).1).read frameId = s.read frameId ∧
    (process_frame ops p s frameId).2.1 = s.next ∧
    (process_frame ops p s frameId).2.1 ≠ frameId := by
  have hne : frameId ≠ s.next := Nat.ne_of_lt h
  refine ⟨?_, rfl, fun he => hne he.symm⟩
  show (Store.write _ s.next _).read frameId = s.read frameId
  rw [store_read_write_ne _ _ _ _ hne]
  show ((reconcile _ _).foldl (drawBottle ops s.next) ((s.alloc _).1)).read frameId =
    s.read frameId
  rw [foldl_drawBottle_read ops s.next frameId hne, store_read_alloc_ne _ _ _ hne]

/-- Pixel fixture for the C8 witness. -/
def w8frame : Frame := [[(9, 9, 9)]]

/-- Store fixture for the C8 witness: one live frame with identity 0. -/
def w8store : Store := { next := 1, cells := [(0, w8frame)] }

/-- Operations fixture for the C8 witness, with *destructive* drawing
primitives: if any drawing had been applied to the input frame's
identity, the frame would have been erased. -/
def w8ops : CvOps Frame Unit :=
  { cvtColor := fun _ => (), gaussianBlur := id, houghCircles := fun _ _ => some [(5, 5, 20)],
    threshold := id, findContours := fun _ => [], circleOp := fun _ _ _ _ _ => [],
    putText := fun _ _ _ => [] }

/-- Witness for C8 at a concrete input: after processing, the input
frame still reads back with its original pixels. -/
theorem c8_frame_not_mutated_witness :
    ((process_frame w8ops defaultParams w8store 0).1).read 0 = Store.read w8store 0 ∧
    Store.read w8store 0 = some w8frame :=
  ⟨(c8_frame_not_mutated w8ops defaultParams w8store 0 (by decide)).1, by decide⟩

end BottleDetect
